import Mathlib

/-!
# Verification of the `classic` Minecraft-Classic protocol library

Shallow embedding of the repository's Python sources:

* `src/classic/util.py`       — `chunked`, `decode_classic_string`, `encode_classic_string`
* `src/classic/connection.py` — `BaseConnection` (codec state, CPE negotiation)
* `src/classic/server.py`     — `ClientConnectionHandler` (server endpoint)
* `src/classic/client.py`     — `ServerConnectionHandler` (client endpoint)

Python `bytes` values are embedded as `List Nat` (each element a byte value),
Python `str` values as `List Nat` of Unicode code points.  Fallible Python code
(raising exceptions) is embedded with `Option`: `none` is an uncaught exception.
-/

namespace Classic

set_option maxRecDepth 8000

/-- Code points of a Lean string literal, used to transcribe the Python string
constants of the sources. -/
def strCodes (s : String) : List Nat := s.data.map Char.toNat

/-! ## Python list/bytes primitives -/

/-- `range(0, stop, step)` for a positive `step` (as used in `util.chunked`). -/
def pyRangeStep (stop step : Nat) : List Nat :=
  (List.range ((stop + step - 1) / step)).map (fun i => i * step)

/-- The Python slice `seq[pos:pos+size]` (`pos`, `size` non-negative). -/
def pySlice {α : Type} (s : List α) (pos size : Nat) : List α :=
  (s.drop pos).take size

/-- The Python slice `seq[:stop]` for a possibly negative `stop`
(negative indices count from the end, clamped at 0 as Python does). -/
def pySliceTo {α : Type} (s : List α) (stop : Int) : List α :=
  if 0 ≤ stop then s.take stop.toNat
  else s.take (((s.length : Int) + stop).toNat)

/-- `util.chunked(seq, size)`:
`(seq[pos:pos + size] for pos in range(0, len(seq), size))`. -/
def chunked {α : Type} (s : List α) (size : Nat) : List (List α) :=
  (pyRangeStep s.length size).map (fun pos => pySlice s pos size)

/-- Membership in Python's ASCII whitespace set `b' \t\n\r\x0b\x0c'`,
the set stripped by `bytes.rstrip()` with no argument. -/
def isPyWs (b : Nat) : Bool :=
  b == 32 || b == 9 || b == 10 || b == 13 || b == 11 || b == 12

/-- `data.rstrip()` on bytes: remove trailing ASCII-whitespace bytes. -/
def rstripAsciiWs (l : List Nat) : List Nat :=
  (l.reverse.dropWhile isPyWs).reverse

/-- `s.rstrip(' ')` on a `str`: remove trailing space characters only.
This follows the spec's words (`s.rstrip(' ')`); the source's decoder instead
uses `bytes.rstrip()`, embedded as `rstripAsciiWs`. -/
def rstripSpaceOnly (l : List Nat) : List Nat :=
  (l.reverse.dropWhile (fun c => c == 32)).reverse

/-! ## Text encodings (`'ascii'` and `'cp437'`)

The repository passes `encoding='ascii'` or `'cp437'` to `str`/`bytes`; the
codecs themselves are the CPython ones: `ascii` maps code points below 128 to
the identical byte; `cp437` decodes bytes 0–127 identically and bytes 128–255
through the standard IBM437 table, and encodes through the inverse mapping. -/

inductive PyEncoding : Type
  | ascii : PyEncoding
  | cp437 : PyEncoding
deriving DecidableEq

/-- Code points of cp437 bytes `0x80`–`0xFF` (the standard IBM437 table, as in
CPython's `cp437` decoding table). -/
def cp437Hi : List Nat :=
  [0xC7, 0xFC, 0xE9, 0xE2, 0xE4, 0xE0, 0xE5, 0xE7,
   0xEA, 0xEB, 0xE8, 0xEF, 0xEE, 0xEC, 0xC4, 0xC5,
   0xC9, 0xE6, 0xC6, 0xF4, 0xF6, 0xF2, 0xFB, 0xF9,
   0xFF, 0xD6, 0xDC, 0xA2, 0xA3, 0xA5, 0x20A7, 0x192,
   0xE1, 0xED, 0xF3, 0xFA, 0xF1, 0xD1, 0xAA, 0xBA,
   0xBF, 0x2310, 0xAC, 0xBD, 0xBC, 0xA1, 0xAB, 0xBB,
   0x2591, 0x2592, 0x2593, 0x2502, 0x2524, 0x2561, 0x2562, 0x2556,
   0x2555, 0x2563, 0x2551, 0x2557, 0x255D, 0x255C, 0x255B, 0x2510,
   0x2514, 0x2534, 0x252C, 0x251C, 0x2500, 0x253C, 0x255E, 0x255F,
   0x255A, 0x2554, 0x2569, 0x2566, 0x2560, 0x2550, 0x256C, 0x2567,
   0x2568, 0x2564, 0x2565, 0x2559, 0x2558, 0x2552, 0x2553, 0x256B,
   0x256A, 0x2518, 0x250C, 0x2588, 0x2584, 0x258C, 0x2590, 0x2580,
   0x3B1, 0xDF, 0x393, 0x3C0, 0x3A3, 0x3C3, 0xB5, 0x3C4,
   0x3A6, 0x398, 0x3A9, 0x3B4, 0x221E, 0x3C6, 0x3B5, 0x2229,
   0x2261, 0xB1, 0x2265, 0x2264, 0x2320, 0x2321, 0xF7, 0x2248,
   0xB0, 0x2219, 0xB7, 0x221A, 0x207F, 0xB2, 0x25A0, 0xA0]

/-- Decode one byte under an encoding (`none` = `UnicodeDecodeError`). -/
def decodeByte : PyEncoding → Nat → Option Nat
  | .ascii, b => if b < 128 then some b else none
  | .cp437, b =>
      if b < 128 then some b
      else if b < 256 then cp437Hi.get? (b - 128)
      else none

/-- Encode one code point under an encoding (`none` = `UnicodeEncodeError`).
The cp437 encoder is the inverse of its decoding table, realised as a search
over all byte values. -/
def encodeChar : PyEncoding → Nat → Option Nat
  | .ascii, c => if c < 128 then some c else none
  | .cp437, c => (List.range 256).find? (fun b => decodeByte .cp437 b == some c)

/-- Apply a per-unit codec across a list; the whole conversion fails if any
unit fails (as a Python codec call does). -/
def mapCodec (f : Nat → Option Nat) : List Nat → Option (List Nat)
  | [] => some []
  | c :: cs => (f c).bind (fun b => (mapCodec f cs).map (fun bs => b :: bs))

/-- `util.decode_classic_string(data, encoding)`:
`str(data.rstrip(), encoding=encoding)`. -/
def decode_classic_string (e : PyEncoding) (data : List Nat) : Option (List Nat) :=
  mapCodec (decodeByte e) (rstripAsciiWs data)

/-- `util.encode_classic_string(data, encoding)`: raise if longer than 64
characters, else encode and right-pad with spaces to 64 bytes
(`bytes(data, encoding=encoding).ljust(64)`). -/
def encode_classic_string (e : PyEncoding) (data : List Nat) : Option (List Nat) :=
  if 64 < data.length then none
  else (mapCodec (encodeChar e) data).map
    (fun bs => bs ++ List.replicate (64 - bs.length) 32)

/-! ### Codec lemmas -/

theorem mapCodec_nil (f : Nat → Option Nat) : mapCodec f [] = some [] := rfl

theorem mapCodec_cons (f : Nat → Option Nat) (c : Nat) (cs : List Nat) :
    mapCodec f (c :: cs)
      = (f c).bind (fun b => (mapCodec f cs).map (fun bs => b :: bs)) := rfl

theorem mapCodec_append (f : Nat → Option Nat) (l₁ l₂ : List Nat) :
    mapCodec f (l₁ ++ l₂)
      = (mapCodec f l₁).bind (fun a => (mapCodec f l₂).map (fun b => a ++ b)) := by
  induction l₁ with
  | nil => cases h : mapCodec f l₂ <;> simp [mapCodec, h]
  | cons c cs ih =>
      simp only [List.cons_append, mapCodec_cons, ih]
      cases f c <;> simp
      cases mapCodec f cs <;> simp
      cases mapCodec f l₂ <;> simp

theorem mapCodec_length (f : Nat → Option Nat) (l m : List Nat)
    (h : mapCodec f l = some m) : m.length = l.length := by
  induction l generalizing m with
  | nil => simp [mapCodec] at h; simp [← h]
  | cons c cs ih =>
      simp only [mapCodec_cons] at h
      cases hc : f c with
      | none => rw [hc] at h; simp at h
      | some b =>
          rw [hc] at h
          cases hcs : mapCodec f cs with
          | none => rw [hcs] at h; simp at h
          | some bs =>
              rw [hcs] at h
              simp at h
              simp [← h, ih bs hcs]

/-- The encoder is a right inverse of the decoder, unit-wise: whatever byte the
Python encoder produces decodes back to the source code point. -/
theorem decodeByte_encodeChar (e : PyEncoding) (c b : Nat)
    (h : encodeChar e c = some b) : decodeByte e b = some c := by
  cases e with
  | ascii =>
      simp only [encodeChar] at h
      by_cases hc : c < 128
      · simp [hc] at h
        simp [decodeByte, ← h, hc]
      · simp [hc] at h
  | cp437 =>
      have := List.find?_some h
      simpa using this

/-- Encoding preserves membership in the ASCII-whitespace set: the byte written
for a code point is whitespace iff the code point is. -/
theorem isPyWs_encodeChar (e : PyEncoding) (c b : Nat)
    (h : encodeChar e c = some b) : isPyWs b = isPyWs c := by
  cases e with
  | ascii =>
      simp only [encodeChar] at h
      by_cases hc : c < 128
      · simp [hc] at h; rw [h]
      · simp [hc] at h
  | cp437 =>
      have hdec : decodeByte .cp437 b = some c := decodeByte_encodeChar _ _ _ h
      by_cases hb : b < 128
      · simp only [decodeByte, if_pos hb] at hdec
        rw [Option.some.inj hdec]
      · simp only [decodeByte, if_neg hb] at hdec
        by_cases hb' : b < 256
        · rw [if_pos hb'] at hdec
          have hcmem : c ∈ cp437Hi := List.get?_mem hdec
          have hc128 : 128 ≤ c := by
            have hall : ∀ x ∈ cp437Hi, 128 ≤ x := by decide
            exact hall c hcmem
          have h1 : isPyWs b = false := by simp [isPyWs]; omega
          have h2 : isPyWs c = false := by simp [isPyWs]; omega
          rw [h1, h2]
        · rw [if_neg hb'] at hdec; simp at hdec

theorem rstripAsciiWs_append_ws (l : List Nat) (b : Nat) (hb : isPyWs b = true) :
    rstripAsciiWs (l ++ [b]) = rstripAsciiWs l := by
  simp [rstripAsciiWs, List.dropWhile, hb]

theorem rstripAsciiWs_append_not_ws (l : List Nat) (b : Nat) (hb : isPyWs b = false) :
    rstripAsciiWs (l ++ [b]) = l ++ [b] := by
  simp [rstripAsciiWs, List.dropWhile, hb]

theorem rstripAsciiWs_append_replicate_space (l : List Nat) (k : Nat) :
    rstripAsciiWs (l ++ List.replicate k 32) = rstripAsciiWs l := by
  induction k with
  | zero => simp
  | succ n ih =>
      have : List.replicate (n + 1) 32 = List.replicate n 32 ++ [32] := by
        simp [List.replicate_succ']
      rw [this, ← List.append_assoc, rstripAsciiWs_append_ws _ 32 rfl, ih]

/-- Unit-wise decoding of a fully encoded string recovers the string. -/
theorem mapCodec_decode_encode (e : PyEncoding) (s bs : List Nat)
    (h : mapCodec (encodeChar e) s = some bs) :
    mapCodec (decodeByte e) bs = some s := by
  induction s generalizing bs with
  | nil => simp [mapCodec] at h; simp [h, mapCodec]
  | cons c cs ih =>
      simp only [mapCodec_cons] at h
      cases hc : encodeChar e c with
      | none => rw [hc] at h; simp at h
      | some b =>
          rw [hc] at h
          cases hcs : mapCodec (encodeChar e) cs with
          | none => rw [hcs] at h; simp at h
          | some bs' =>
              rw [hcs] at h
              simp at h
              rw [← h, mapCodec_cons, decodeByte_encodeChar e c b hc]
              simp [ih bs' hcs]

/-- Stripping commutes with encoding: the encoder image of a
whitespace-stripped string is the whitespace-stripped image. -/
theorem mapCodec_rstrip (e : PyEncoding) (s bs : List Nat)
    (h : mapCodec (encodeChar e) s = some bs) :
    mapCodec (encodeChar e) (rstripAsciiWs s) = some (rstripAsciiWs bs) := by
  induction s using List.reverseRecOn generalizing bs with
  | nil => simp [mapCodec] at h; simp [h, rstripAsciiWs, mapCodec]
  | append_singleton s' c ih =>
      rw [mapCodec_append] at h
      cases hs' : mapCodec (encodeChar e) s' with
      | none => rw [hs'] at h; simp at h
      | some bs' =>
          rw [hs'] at h
          cases hc : encodeChar e c with
          | none => simp [hc, mapCodec] at h
          | some b =>
              simp [hc, mapCodec] at h
              by_cases hw : isPyWs c = true
              · rw [rstripAsciiWs_append_ws s' c hw, ← h,
                    rstripAsciiWs_append_ws bs' b (by rw [isPyWs_encodeChar e c b hc]; exact hw)]
                exact ih bs' hs'
              · have hw' : isPyWs c = false := by simpa using hw
                rw [rstripAsciiWs_append_not_ws s' c hw', ← h,
                    rstripAsciiWs_append_not_ws bs' b (by rw [isPyWs_encodeChar e c b hc]; exact hw')]
                rw [mapCodec_append, hs', mapCodec_cons, hc]
                simp [mapCodec]

/-- Core round-trip fact (util.py): decoding an encoded string yields the
string with its trailing ASCII-whitespace characters removed. -/
theorem decode_encode_aux (e : PyEncoding) (s w : List Nat)
    (h : encode_classic_string e s = some w) :
    decode_classic_string e w = some (rstripAsciiWs s) := by
  simp only [encode_classic_string] at h
  by_cases hl : 64 < s.length
  · simp [hl] at h
  · simp only [if_neg hl] at h
    cases hm : mapCodec (encodeChar e) s with
    | none => rw [hm] at h; simp at h
    | some bs =>
        rw [hm] at h
        simp at h
        rw [decode_classic_string, ← h, rstripAsciiWs_append_replicate_space]
        exact mapCodec_decode_encode e (rstripAsciiWs s) (rstripAsciiWs bs)
          (mapCodec_rstrip e s bs hm)

/-! ### `chunked` lemmas -/

theorem chunked_nil {α : Type} (n : Nat) : chunked ([] : List α) n = [] := by
  cases n with
  | zero => simp [chunked, pyRangeStep]
  | succ m =>
      simp only [chunked, pyRangeStep, List.length_nil]
      have : (0 + (m + 1) - 1) / (m + 1) = 0 := Nat.div_eq_of_lt (by omega)
      rw [this]
      rfl

/-- Ceiling-division recurrence underlying `chunked`'s chunk count. -/
theorem ceil_div_step (n L : Nat) (hn : 0 < n) (hL : 0 < L) :
    (L + n - 1) / n = ((L - n) + n - 1) / n + 1 := by
  by_cases h : L ≤ n
  · have h1 : L - n = 0 := by omega
    have h2 : (L + n - 1) / n = 1 := by
      apply Nat.div_eq_of_lt_le <;> omega
    have h3 : (0 + n - 1) / n = 0 := Nat.div_eq_of_lt (by omega)
    rw [h1, h2, h3]
  · have h1 : L + n - 1 = ((L - 1 - n) + n) + n := by omega
    have h2 : (L - n) + n - 1 = (L - 1 - n) + n := by omega
    rw [h1, h2, Nat.add_div_right _ hn, Nat.add_div_right _ hn]

/-- Unfolding `chunked` one chunk at a time, as the Python generator yields. -/
theorem chunked_cons {α : Type} (n : Nat) (hn : 0 < n) (s : List α) (hs : s ≠ []) :
    chunked s n = s.take n :: chunked (s.drop n) n := by
  have hL : 0 < s.length := List.length_pos.mpr hs
  simp only [chunked, pyRangeStep, List.length_drop]
  rw [ceil_div_step n s.length hn hL]
  rw [List.range_succ_eq_map]
  simp only [List.map_cons, List.map_map]
  congr 1
  · simp [pySlice]
  · apply List.map_congr_left
    intro i _
    simp only [Function.comp_apply, pySlice, List.drop_drop]
    rw [Nat.succ_mul, Nat.add_comm (i * n) n]

/-- Induction along the chunk decomposition of a list. -/
theorem chunked_induction {α : Type} (n : Nat) (hn : 0 < n) (P : List α → Prop)
    (base : P []) (step : ∀ s, s ≠ [] → P (List.drop n s) → P s) : ∀ s : List α, P s
  | [] => base
  | a :: t =>
      step (a :: t) (by simp)
        (chunked_induction n hn P base step (List.drop n (a :: t)))
termination_by s => s.length
decreasing_by
  simp only [List.length_drop, List.length_cons]
  omega

theorem chunked_flatten {α : Type} (n : Nat) (hn : 0 < n) (s : List α) :
    (chunked s n).flatten = s := by
  induction s using chunked_induction n hn with
  | base => simp [chunked_nil]
  | step s hs ih =>
      rw [chunked_cons n hn s hs]
      simp [ih]

theorem chunked_eq_nil_iff {α : Type} (n : Nat) (hn : 0 < n) (s : List α) :
    chunked s n = [] ↔ s = [] := by
  constructor
  · intro h
    by_contra hs
    rw [chunked_cons n hn s hs] at h
    simp at h
  · intro h; rw [h, chunked_nil]

theorem chunked_length {α : Type} (n : Nat) (hn : 0 < n) (s : List α) :
    (chunked s n).length = (s.length + n - 1) / n := by
  induction s using chunked_induction n hn with
  | base =>
      rw [chunked_nil]
      simp [Nat.div_eq_of_lt (show n - 1 < n by omega)]
  | step s hs ih =>
      have hL : 0 < s.length := List.length_pos.mpr hs
      rw [chunked_cons n hn s hs]
      simp only [List.length_cons, ih, List.length_drop]
      rw [ceil_div_step n s.length hn hL]

theorem chunked_mem_length {α : Type} (n : Nat) (hn : 0 < n) (s : List α) :
    ∀ c ∈ chunked s n, 1 ≤ c.length ∧ c.length ≤ n := by
  induction s using chunked_induction n hn with
  | base => rw [chunked_nil]; intro c hc; simp at hc
  | step s hs ih =>
      rw [chunked_cons n hn s hs]
      intro c hc
      rcases List.mem_cons.mp hc with h | h
      · subst h
        have hL : 0 < s.length := List.length_pos.mpr hs
        simp [List.length_take]
        omega
      · exact ih c h

theorem chunked_dropLast_length {α : Type} (n : Nat) (hn : 0 < n) (s : List α) :
    ∀ c ∈ (chunked s n).dropLast, c.length = n := by
  induction s using chunked_induction n hn with
  | base => rw [chunked_nil]; intro c hc; simp at hc
  | step s hs ih =>
      rw [chunked_cons n hn s hs]
      intro c hc
      by_cases hrest : s.drop n = []
      · rw [hrest, chunked_nil] at hc
        simp at hc
      · have hne : chunked (s.drop n) n ≠ [] :=
          fun h => hrest ((chunked_eq_nil_iff n hn _).mp h)
        rw [List.dropLast_cons_of_ne_nil hne] at hc
        rcases List.mem_cons.mp hc with h | h
        · subst h
          have : n ≤ s.length := by
            have := List.length_pos.mpr hrest
            simp only [List.length_drop] at this
            omega
          simp [List.length_take]
          omega
        · exact ih c h

/-! ## `connection.py`: extensions and codec state -/

/-- `Extension(name, version)` — a `NamedTuple`; equality is on the pair. -/
structure Extension : Type where
  name : List Nat
  version : Nat
deriving DecidableEq

def ExtPlayerList2 : Extension := ⟨strCodes "ExtPlayerList", 2⟩
def EntityPositions : Extension := ⟨strCodes "ExtEntityPositions", 1⟩
def HeldBlock : Extension := ⟨strCodes "HeldBlock", 1⟩
def FullCP437 : Extension := ⟨strCodes "FullCP437", 1⟩
def MessageTypes : Extension := ⟨strCodes "MessageTypes", 1⟩
def LongerMessages : Extension := ⟨strCodes "LongerMessages", 1⟩
def TextColors : Extension := ⟨strCodes "TextColors", 1⟩
def BlockPermissions : Extension := ⟨strCodes "BlockPermissions", 1⟩
def PlayerClick : Extension := ⟨strCodes "PlayerClick", 1⟩

/-- The two values of `self._location_struct`: `"3h2B"` (default, signed
16-bit axes) and `"3i2B"` (signed 32-bit axes after `ExtEntityPositions`). -/
inductive LocStruct : Type
  | fmt3h2B : LocStruct
  | fmt3i2B : LocStruct
deriving DecidableEq

/-- The `BaseConnection` fields driving CPE negotiation
(`connection.py:57-59` initialises `_text_encoding = "ascii"`,
`_location_struct = "3h2B"`, `_ext_left = 0`).  `extensions` is a Python
`set`, embedded as a duplicate-free insertion list; `extLeft` is an `int`
(it is read from a signed short and decremented without a floor). -/
structure BaseConn : Type where
  alive : Bool
  vendor : List Nat
  extensions : List Extension
  textEncoding : PyEncoding
  locStruct : LocStruct
  extLeft : Int
deriving DecidableEq

/-- A fresh `BaseConnection.__init__` state. -/
def initBase : BaseConn :=
  { alive := true, vendor := strCodes "(no vendor)", extensions := [],
    textEncoding := .ascii, locStruct := .fmt3h2B, extLeft := 0 }

/-- `BaseConnection.close`: set `alive` to false. -/
def close_conn (st : BaseConn) : BaseConn := { st with alive := false }

/-- `BaseConnection.received_extensions` (`connection.py:138-143`): switch the
location struct if `ExtEntityPositions` was received, the text encoding if
`FullCP437` was received. -/
def received_extensions (st : BaseConn) : BaseConn :=
  let st1 := if EntityPositions ∈ st.extensions
             then { st with locStruct := .fmt3i2B } else st
  if FullCP437 ∈ st1.extensions
  then { st1 with textEncoding := .cp437 } else st1

/-- `BaseConnection.handle_ext_info`: store the peer's agent string and the
signed-16-bit count of ext-entries to follow. -/
def handle_ext_info (vendor : List Nat) (count : Int) (st : BaseConn) : BaseConn :=
  { st with vendor := vendor, extLeft := count }

/-- `BaseConnection.handle_ext_entry` (`connection.py:155-164`): close if the
countdown is already 0 (`if not self._ext_left`), then — closing does not
return — add the extension, decrement, and fire `received_extensions` when the
countdown reaches exactly 0. -/
def handle_ext_entry (extName : List Nat) (version : Nat) (st : BaseConn) : BaseConn :=
  let st1 := if st.extLeft = 0 then close_conn st else st
  let st2 := { st1 with extensions := st1.extensions.insert ⟨extName, version⟩ }
  let st3 := { st2 with extLeft := st2.extLeft - 1 }
  if st3.extLeft = 0 then received_extensions st3 else st3

/-! ## Wire write primitives (`connection.py` write helpers)

Each returns the bytes appended to the stream, `none` embedding the
`OverflowError`/`struct.error` Python raises on out-of-range values. -/

/-- `write_byte`: `int.to_bytes(x, 1, 'big')`. -/
def byteW (x : Nat) : Option (List Nat) :=
  if x < 256 then some [x] else none

/-- `write_byte` applied to a Python `bool` (`False`/`True` pack as 0/1). -/
def boolByte (b : Bool) : Nat := if b then 1 else 0

/-- `write_short`: signed 16-bit big-endian. -/
def i16W (x : Int) : Option (List Nat) :=
  if -32768 ≤ x ∧ x < 32768 then
    some [(x % 65536).toNat / 256, (x % 65536).toNat % 256]
  else none

/-- One unsigned 16-bit big-endian field of a `"3H"` position. -/
def u16W (x : Nat) : Option (List Nat) :=
  if x < 65536 then some [x / 256, x % 256] else none

/-- `write_int`: unsigned 32-bit big-endian (`x.to_bytes(4, 'big')`). -/
def u32W (x : Nat) : Option (List Nat) :=
  if x < 4294967296 then
    some [x / 16777216 % 256, x / 65536 % 256, x / 256 % 256, x % 256]
  else none

/-- Signed 32-bit big-endian field of a `"3i2B"` location. -/
def i32W (x : Int) : Option (List Nat) :=
  if -2147483648 ≤ x ∧ x < 2147483648 then
    some [(x % 4294967296).toNat / 16777216 % 256,
          (x % 4294967296).toNat / 65536 % 256,
          (x % 4294967296).toNat / 256 % 256,
          (x % 4294967296).toNat % 256]
  else none

/-- Concatenate two fallible byte writes. -/
def ocat (a b : Option (List Nat)) : Option (List Nat) :=
  a.bind (fun x => b.map (fun y => x ++ y))

/-- `write_position`: `write_struct("3H", x, y, z)`. -/
def posW (x y z : Nat) : Option (List Nat) :=
  ocat (u16W x) (ocat (u16W y) (u16W z))

/-- `write_location`: the current `_location_struct` (`"3h2B"` or `"3i2B"`)
applied to three axes plus yaw and pitch bytes. -/
def locW (fmt : LocStruct) (x y z : Int) (yaw pitch : Nat) : Option (List Nat) :=
  match fmt with
  | .fmt3h2B => ocat (i16W x) (ocat (i16W y) (ocat (i16W z)
      (ocat (byteW yaw) (byteW pitch))))
  | .fmt3i2B => ocat (i32W x) (ocat (i32W y) (ocat (i32W z)
      (ocat (byteW yaw) (byteW pitch))))

/-- `write_string`: `encode_classic_string` under the session's encoding. -/
def strW (e : PyEncoding) (s : List Nat) : Option (List Nat) :=
  encode_classic_string e s

/-- `write_struct("1024s", chunk)`: `struct` truncates or right-pads the bytes
with zeros to exactly 1024. -/
def pad1024 (c : List Nat) : List Nat :=
  c.take 1024 ++ List.replicate (1024 - c.length) 0

/-- The 4-byte big-endian length prefix `volume.to_bytes(4, 'big')`
(callers guard `volume < 2^32`). -/
def u32be (x : Nat) : List Nat :=
  [x / 16777216 % 256, x / 65536 % 256, x / 256 % 256, x % 256]

theorem u32be_length (x : Nat) : (u32be x).length = 4 := rfl

/-! ## `server.py`: the server endpoint (`ClientConnectionHandler`)

Outbound role methods.  The session state keeps the fields these methods read
or write; `out` is the byte stream already written.  Fields the embedded
operations never touch (`username`, `token`, `_last_held`) are omitted.
Upcalls to the application handler are recorded in `upcalls`; Python's
`self.handler` being `None` is `handlerSet = false`. -/

/-- Upcalls delivered to a server-side application handler
(`ServerConnection` protocol). -/
inductive ServerUpcall : Type
  | submitMessage : List Nat → ServerUpcall
  | disconnected : ServerUpcall
deriving DecidableEq

structure SrvSession : Type where
  alive : Bool
  extensions : List Extension
  textEncoding : PyEncoding
  locStruct : LocStruct
  out : List Nat
  lastLocation : Option (Int × Int × Int × Nat × Nat)
  messageBuffer : List Nat
  handlerSet : Bool
  upcalls : List ServerUpcall
deriving DecidableEq

/-- `ClientConnectionHandler.close` (`server.py:162-165`): deliver
`handler.disconnect()` if a handler is installed, then `super().close()`.
There is no liveness guard. -/
def srvClose (st : SrvSession) : SrvSession :=
  { st with
    alive := false
    upcalls := if st.handlerSet
               then st.upcalls ++ [ServerUpcall.disconnected]
               else st.upcalls }

/-- Append a fallible byte write to the session's stream. -/
def emitS (st : SrvSession) (bs : Option (List Nat)) : Option SrvSession :=
  bs.map (fun b => { st with out := st.out ++ b })

/-- The `if_alive` decorator (`server.py:15-21`): run the body only when the
session is alive; on a dead session return without evaluating the body. -/
def if_alive (f : SrvSession → Option SrvSession) (st : SrvSession) : Option SrvSession :=
  if st.alive then f st else some st

/-- `write_byte` of an `int` argument (errors outside 0–255). -/
def byteWI (x : Int) : Option (List Nat) :=
  if 0 ≤ x ∧ x < 256 then some [x.toNat] else none

def add_entity (n : Nat) (name : List Nat) (x y z : Int) (yaw pitch : Nat)
    (skin : Option (List Nat)) : SrvSession → Option SrvSession :=
  if_alive (fun st =>
    let support := ExtPlayerList2 ∈ st.extensions
    (emitS st (byteW (if support then 0x21 else 0x07))).bind (fun st =>
    (emitS st (byteW n)).bind (fun st =>
    (emitS st (strW st.textEncoding name)).bind (fun st =>
    (if support then
       emitS st (strW st.textEncoding
         (match skin with
          | none => name
          | some s => if s = [] then name else s))
     else some st).bind (fun st =>
    emitS st (locW st.locStruct x y z yaw pitch))))))

def move_entity (n : Nat) (x y z : Int) (yaw pitch : Nat) :
    SrvSession → Option SrvSession :=
  if_alive (fun st =>
    (emitS st (byteW 0x08)).bind (fun st =>
    (emitS st (byteW n)).bind (fun st =>
    emitS st (locW st.locStruct x y z yaw pitch))))

def remove_entity (n : Nat) : SrvSession → Option SrvSession :=
  if_alive (fun st =>
    (emitS st (byteW 0x0C)).bind (fun st =>
    emitS st (byteW n)))

/-- `world_info` (`server.py:67-72`): hello opcode, name string, motd string,
operator byte — the source writes no protocol-version byte. -/
def world_info (name message : List Nat) (is_operator : Bool) :
    SrvSession → Option SrvSession :=
  if_alive (fun st =>
    (emitS st (byteW 0x00)).bind (fun st =>
    (emitS st (strW st.textEncoding name)).bind (fun st =>
    (emitS st (strW st.textEncoding message)).bind (fun st =>
    emitS st (byteW (boolByte is_operator))))))

/-- `send_level` (`server.py:74-85`), parameterised by the `gzip.compress`
function: start-level opcode; compress the 4-byte length prefix plus payload;
emit one level-chunk frame per 1024-byte chunk (signed-short length, the chunk
zero-padded to 1024 bytes, a `0` percent byte); finish-level with the
block-space spawn position. -/
def send_level (comp : List Nat → List Nat) (x y z : Nat) (data : List Nat) :
    SrvSession → Option SrvSession :=
  if_alive (fun st =>
    (emitS st (byteW 0x02)).bind (fun st =>
    if data.length < 4294967296 then
      ((chunked (comp (u32be data.length ++ data)) 1024).foldlM (fun st c =>
         (emitS st (byteW 0x03)).bind (fun st =>
         (emitS st (i16W (c.length : Int))).bind (fun st =>
         (emitS st (some (pad1024 c))).bind (fun st =>
         emitS st (byteW 0))))) st).bind (fun st =>
      (emitS st (byteW 0x04)).bind (fun st =>
      emitS st (posW x y z)))
    else none))

def set_block (x y z : Nat) (block : Nat) : SrvSession → Option SrvSession :=
  if_alive (fun st =>
    (emitS st (byteW 0x06)).bind (fun st =>
    (emitS st (posW x y z)).bind (fun st =>
    emitS st (byteW block))))

/-- `send_message` (`server.py:96-106`).  `message_type` is `None`-or-int in
Python; `None` and `0` are both falsy, so the embedded `mtype = 0` selects the
chunked plain path. -/
def send_message (msg : List Nat) (mtype : Nat) : SrvSession → Option SrvSession :=
  if_alive (fun st =>
    if mtype ≠ 0 then
      (emitS st (byteW 0x0D)).bind (fun st =>
      (emitS st (byteW mtype)).bind (fun st =>
      emitS st (strW st.textEncoding msg)))
    else
      (chunked msg 64).foldlM (fun st c =>
        (emitS st (byteW 0x0D)).bind (fun st =>
        (emitS st (byteW 0)).bind (fun st =>
        emitS st (strW st.textEncoding c)))) st)

/-- `set_message`: no `if_alive` decorator of its own; gated on
`MessageTypes`, delegating to the guarded `send_message`. -/
def set_message (mtype : Nat) (msg : List Nat) : SrvSession → Option SrvSession :=
  fun st =>
    if MessageTypes ∈ st.extensions then send_message msg mtype st else some st

def set_location (n : Nat) (x y z : Int) (yaw pitch : Nat) :
    SrvSession → Option SrvSession :=
  if_alive (fun st =>
    (emitS st (byteW 0x08)).bind (fun st =>
    (emitS st (byteW n)).bind (fun st =>
    (emitS st (locW st.locStruct x y z yaw pitch)).map (fun st =>
    if n = 255 then { st with lastLocation := some (x, y, z, yaw, pitch) } else st))))

def kick (msg : List Nat) : SrvSession → Option SrvSession :=
  if_alive (fun st =>
    (emitS st (byteW 0x0E)).bind (fun st =>
    (emitS st (strW st.textEncoding msg)).map (fun st =>
    srvClose st)))

/-- `set_color_code`: gated on `TextColors`; `write_struct("4Bc", r, g, b, a,
number)` needs `number` to be a single byte (`c` format), and writes no
opcode byte (as in the source). -/
def set_color_code (number : List Nat) (r g b a : Nat) :
    SrvSession → Option SrvSession :=
  if_alive (fun st =>
    if TextColors ∈ st.extensions then
      if r < 256 ∧ g < 256 ∧ b < 256 ∧ a < 256 ∧ number.length = 1 then
        emitS st (some ([r, g, b, a] ++ number))
      else none
    else some st)

def set_block_permission (block : Nat) (create destroy : Bool) :
    SrvSession → Option SrvSession :=
  if_alive (fun st =>
    if BlockPermissions ∈ st.extensions then
      (emitS st (byteW 0x1C)).bind (fun st =>
      (emitS st (byteW block)).bind (fun st =>
      (emitS st (byteW (boolByte create))).bind (fun st =>
      emitS st (byteW (boolByte destroy)))))
    else some st)

def add_player (player_id : Int) (name : List Nat) (display_name : Option (List Nat))
    (order : Option Int) (group : List Nat) : SrvSession → Option SrvSession :=
  if_alive (fun st =>
    if ExtPlayerList2 ∈ st.extensions then
      (emitS st (byteW 0x16)).bind (fun st =>
      (emitS st (i16W player_id)).bind (fun st =>
      (emitS st (strW st.textEncoding name)).bind (fun st =>
      (emitS st (strW st.textEncoding
         (match display_name with
          | none => name
          | some d => if d = [] then name else d))).bind (fun st =>
      (emitS st (strW st.textEncoding group)).bind (fun st =>
      emitS st (byteWI
        (match order with
         | none => player_id
         | some o => if o = 0 then player_id else o)))))))
    else some st)

/-- `remove_player` (`server.py:147-151`): the source gates the write on the
ABSENCE of `ExtPlayerList` (`if ExtPlayerList2 not in self.extensions`). -/
def remove_player (player_id : Int) : SrvSession → Option SrvSession :=
  if_alive (fun st =>
    if ExtPlayerList2 ∈ st.extensions then some st
    else
      (emitS st (byteW 0x18)).bind (fun st =>
      emitS st (i16W player_id)))

/-- `hold_this`: the source gates on `ExtPlayerList2` (not `HeldBlock`). -/
def hold_this (block : Nat) (force : Bool) : SrvSession → Option SrvSession :=
  if_alive (fun st =>
    if ExtPlayerList2 ∈ st.extensions then
      (emitS st (byteW 0x14)).bind (fun st =>
      (emitS st (byteW block)).bind (fun st =>
      emitS st (byteW (boolByte force))))
    else some st)

/-- The outbound operations of the server role, for quantifying over them. -/
inductive ServerOp : Type
  | add_entity (n : Nat) (name : List Nat) (x y z : Int) (yaw pitch : Nat)
      (skin : Option (List Nat))
  | move_entity (n : Nat) (x y z : Int) (yaw pitch : Nat)
  | remove_entity (n : Nat)
  | world_info (name msg : List Nat) (is_operator : Bool)
  | send_level (x y z : Nat) (data : List Nat)
  | set_block (x y z : Nat) (block : Nat)
  | send_message (msg : List Nat) (mtype : Nat)
  | set_message (mtype : Nat) (msg : List Nat)
  | set_location (n : Nat) (x y z : Int) (yaw pitch : Nat)
  | kick (msg : List Nat)
  | set_color_code (number : List Nat) (r g b a : Nat)
  | set_block_permission (block : Nat) (create destroy : Bool)
  | add_player (player_id : Int) (name : List Nat) (display_name : Option (List Nat))
      (order : Option Int) (group : List Nat)
  | remove_player (player_id : Int)
  | hold_this (block : Nat) (force : Bool)

def runServerOp (comp : List Nat → List Nat) : ServerOp → SrvSession → Option SrvSession
  | .add_entity n name x y z yaw pitch skin => add_entity n name x y z yaw pitch skin
  | .move_entity n x y z yaw pitch => move_entity n x y z yaw pitch
  | .remove_entity n => remove_entity n
  | .world_info name msg op => world_info name msg op
  | .send_level x y z data => send_level comp x y z data
  | .set_block x y z block => set_block x y z block
  | .send_message msg mtype => send_message msg mtype
  | .set_message mtype msg => set_message mtype msg
  | .set_location n x y z yaw pitch => set_location n x y z yaw pitch
  | .kick msg => kick msg
  | .set_color_code number r g b a => set_color_code number r g b a
  | .set_block_permission block create destroy => set_block_permission block create destroy
  | .add_player pid name dn order group => add_player pid name dn order group
  | .remove_player pid => remove_player pid
  | .hold_this block force => hold_this block force

/-! ## `client.py`: the client endpoint (`ServerConnectionHandler`) -/

/-- Upcalls delivered to a client-side application handler
(`ClientConnection` protocol); only the ones reachable through the embedded
frame handlers appear. -/
inductive ClientUpcall : Type
  | sendLevel : Nat → Nat → Nat → List Nat → ClientUpcall
  | worldInfo : List Nat → List Nat → ClientUpcall
  | disconnected : ClientUpcall
deriving DecidableEq

/-- State of a `ServerConnectionHandler` session.  Fields the embedded
operations never touch (`_last_held`, `_partial_message`, heartbeat time) are
omitted; `name`/`motd`/`operator` start unset and are embedded with defaults. -/
structure CliSession : Type where
  alive : Bool
  extensions : List Extension
  textEncoding : PyEncoding
  locStruct : LocStruct
  out : List Nat
  lastLocation : Option (Int × Int × Int × Nat × Nat)
  holding : Nat
  receivingLevel : Bool
  levelBuffer : Option (List Nat)
  name : List Nat
  motd : List Nat
  operator : Nat
  handlerSet : Bool
  upcalls : List ClientUpcall
deriving DecidableEq

/-- `ServerConnectionHandler.close` (`client.py:78-81`): deliver
`handler.disconnect()` if a handler is installed, then `super().close()`.
No liveness guard. -/
def cliClose (st : CliSession) : CliSession :=
  { st with
    alive := false
    upcalls := if st.handlerSet
               then st.upcalls ++ [ClientUpcall.disconnected]
               else st.upcalls }

/-- Append a fallible byte write to the client session's stream. -/
def emitC (st : CliSession) (bs : Option (List Nat)) : Option CliSession :=
  bs.map (fun b => { st with out := st.out ++ b })

namespace CliRole

/-- `hello` (`client.py:32-37`): opcode, version byte 7, username, password,
magic byte 0x42.  Client-role outbound methods carry no `if_alive` guard. -/
def hello (username password : List Nat) : CliSession → Option CliSession :=
  fun st =>
    (emitC st (byteW 0x00)).bind (fun st =>
    (emitC st (byteW 7)).bind (fun st =>
    (emitC st (strW st.textEncoding username)).bind (fun st =>
    (emitC st (strW st.textEncoding password)).bind (fun st =>
    emitC st (byteW 66)))))

def change_location (x y z : Int) (yaw pitch : Nat) (holding : Nat) :
    CliSession → Option CliSession :=
  fun st =>
    (emitC st (byteW 0x08)).bind (fun st =>
    (emitC st (byteW holding)).bind (fun st =>
    (emitC st (locW st.locStruct x y z yaw pitch)).map (fun st =>
    { st with lastLocation := some (x, y, z, yaw, pitch) })))

/-- `change_held`: re-sends the cached location when `HeldBlock` negotiated
(unpacking `_last_location`, a `TypeError` when it is still `None`). -/
def change_held (block : Nat) : CliSession → Option CliSession :=
  fun st =>
    (if HeldBlock ∈ st.extensions then
       match st.lastLocation with
       | none => none
       | some (x, y, z, yaw, pitch) => change_location x y z yaw pitch block st
     else some st).map (fun st => { st with holding := block })

def change_block (x y z : Nat) (placed : Bool) (holding : Nat) :
    CliSession → Option CliSession :=
  fun st =>
    (emitC st (byteW 0x05)).bind (fun st =>
    (emitC st (posW x y z)).bind (fun st =>
    (emitC st (byteW (boolByte placed))).bind (fun st =>
    emitC st (byteW holding))))

/-- `set_block`: `placed = not not block`, cache held, delegate. -/
def set_block (x y z : Nat) (block : Nat) : CliSession → Option CliSession :=
  fun st =>
    change_block x y z (decide (block ≠ 0)) block { st with holding := block }

/-- `break_block`: a truthy `holding` argument replaces the cache, otherwise
the cached held block is used. -/
def break_block (x y z : Nat) (holding : Option Nat) :
    CliSession → Option CliSession :=
  fun st =>
    match holding with
    | some h =>
        if h ≠ 0 then change_block x y z false h { st with holding := h }
        else change_block x y z false st.holding st
    | none => change_block x y z false st.holding st

/-- `submit_message` (`client.py:68-74`): one message frame per 64-character
chunk; the `partial` flag byte is 0 on the first frame and 1 afterwards. -/
def submit_message (msg : List Nat) : CliSession → Option CliSession :=
  fun st =>
    ((chunked msg 64).foldlM (fun (p : CliSession × Nat) c =>
        (emitC p.1 (byteW 0x0D)).bind (fun st =>
        (emitC st (byteW p.2)).bind (fun st =>
        (emitC st (strW st.textEncoding c)).map (fun st => (st, 1)))))
      (st, 0)).map Prod.fst

end CliRole

/-- The outbound operations of the client role. -/
inductive ClientOp : Type
  | hello (username password : List Nat)
  | change_held (block : Nat)
  | change_location (x y z : Int) (yaw pitch : Nat) (holding : Nat)
  | set_block (x y z : Nat) (block : Nat)
  | break_block (x y z : Nat) (holding : Option Nat)
  | change_block (x y z : Nat) (placed : Bool) (holding : Nat)
  | submit_message (msg : List Nat)

def runClientOp : ClientOp → CliSession → Option CliSession
  | .hello u p => CliRole.hello u p
  | .change_held b => CliRole.change_held b
  | .change_location x y z yaw pitch h => CliRole.change_location x y z yaw pitch h
  | .set_block x y z b => CliRole.set_block x y z b
  | .break_block x y z h => CliRole.break_block x y z h
  | .change_block x y z p h => CliRole.change_block x y z p h
  | .submit_message m => CliRole.submit_message m

/-! ## Inbound frame loops

`handle_forever` pulls an opcode byte and dispatches on the handler table
while `alive` holds; `ConnectionResetError`/`EOFError` (including
`IncompleteReadError` from `readexactly`) close the session.  The loops below
consume a finite byte list: an empty list means no further frames have
arrived (the coroutine would suspend), a frame truncated by the end of the
list is an `IncompleteReadError` (close).  Only the handlers exercised by the
theorems in this file are given their table entries (server: chat-message;
client: hello, start-level, level-chunk, finish-level); every other opcode is
conservatively sent to `handle_unknown` (close), and no theorem below feeds
such an opcode. -/

/-- `read_short`: two bytes, big-endian, signed. -/
def readI16 (b0 b1 : Nat) : Int :=
  let v := b0 * 256 + b1
  if v < 32768 then (v : Int) else (v : Int) - 65536

/-- One unsigned 16-bit big-endian field of a `"3H"` position. -/
def readU16 (b0 b1 : Nat) : Nat := b0 * 256 + b1

/-- Server-side frame loop (`ClientConnectionHandler` inbound), with the
`_handle_chat_message` entry (`server.py:192-199`): flag byte, 64 raw bytes
appended to `_partial_message`; a 0 flag decodes the whole buffer and
delivers `submit_message`. -/
def serverRun : List Nat → SrvSession → Option SrvSession
  | [], st => some st
  | op :: rest, st =>
    if st.alive = false then some st
    else if op = 0x0D then
      if rest.length < 65 then some (srvClose st)
      else
        let flag := rest.getD 0 0
        let raw := (rest.drop 1).take 64
        let st1 := { st with messageBuffer := st.messageBuffer ++ raw }
        if flag = 0 then
          match decode_classic_string st1.textEncoding st1.messageBuffer with
          | none => none
          | some msg =>
              if st1.handlerSet then
                serverRun (rest.drop 65)
                  { st1 with
                    messageBuffer := []
                    upcalls := st1.upcalls ++ [ServerUpcall.submitMessage msg] }
              else none
        else serverRun (rest.drop 65) st1
    else serverRun rest (srvClose st)
termination_by l _ => l.length
decreasing_by
  all_goals simp [List.length_drop]
  all_goals omega

/-- Client-side frame loop (`ServerConnectionHandler` inbound), with the
`_handle_hello` (`client.py:150-161`), `_handle_level_start`,
`_handle_level_chunk` and `_handle_level_end` (`client.py:130-148`) entries,
parameterised by the `gzip.decompress` function. -/
def clientRun (decomp : List Nat → List Nat) : List Nat → CliSession → Option CliSession
  | [], st => some st
  | op :: rest, st =>
    if st.alive = false then some st
    else if op = 0x00 then
      if rest.length < 130 then some (cliClose st)
      else
        let version := rest.getD 0 0
        match decode_classic_string st.textEncoding ((rest.drop 1).take 64) with
        | none => none
        | some nm =>
          match decode_classic_string st.textEncoding ((rest.drop 65).take 64) with
          | none => none
          | some mt =>
              let oper := rest.getD 129 0
              let st1 := { st with name := nm, motd := mt, operator := oper }
              let st2 := if version ≠ 7 then cliClose st1 else st1
              clientRun decomp (rest.drop 130)
                { st2 with
                  handlerSet := true
                  upcalls := st2.upcalls ++ [ClientUpcall.worldInfo nm mt] }
    else if op = 0x02 then
      clientRun decomp rest { st with receivingLevel := true, levelBuffer := some [] }
    else if op = 0x03 then
      if rest.length < 1027 then some (cliClose st)
      else
        let size := readI16 (rest.getD 0 0) (rest.getD 1 0)
        let chunk := (rest.drop 2).take 1024
        if st.receivingLevel then
          match st.levelBuffer with
          | none => none
          | some buf =>
              clientRun decomp (rest.drop 1027)
                { st with levelBuffer := some (buf ++ pySliceTo chunk size) }
        else clientRun decomp (rest.drop 1027) st
    else if op = 0x04 then
      if rest.length < 6 then some (cliClose st)
      else
        let x := readU16 (rest.getD 0 0) (rest.getD 1 0)
        let y := readU16 (rest.getD 2 0) (rest.getD 3 0)
        let z := readU16 (rest.getD 4 0) (rest.getD 5 0)
        if st.receivingLevel then
          match st.levelBuffer with
          | none => none
          | some buf =>
              if st.handlerSet then
                clientRun decomp (rest.drop 6)
                  { st with
                    receivingLevel := false
                    levelBuffer := none
                    upcalls := st.upcalls
                      ++ [ClientUpcall.sendLevel x y z ((decomp buf).drop 4)] }
              else none
        else clientRun decomp (rest.drop 6) st
    else clientRun decomp rest (cliClose st)
termination_by l _ => l.length
decreasing_by
  all_goals simp [List.length_drop]
  all_goals omega

/-! ## Write/read evaluation lemmas -/

theorem byteW_eval (x : Nat) (h : x < 256) : byteW x = some [x] := if_pos h

theorem i16W_of_small (n : Nat) (h : n < 32768) :
    i16W (n : Int) = some [n / 256, n % 256] := by
  have h1 : (-32768 : Int) ≤ (n : Int) ∧ (n : Int) < 32768 := by omega
  simp only [i16W, if_pos h1]
  have h2 : (((n : Int) % 65536)).toNat = n := by omega
  rw [h2]

theorem posW_eval (x y z : Nat) (hx : x < 65536) (hy : y < 65536) (hz : z < 65536) :
    posW x y z = some [x / 256, x % 256, y / 256, y % 256, z / 256, z % 256] := by
  simp [posW, u16W, ocat, hx, hy, hz]

theorem pad1024_of_le (c : List Nat) (h : c.length ≤ 1024) :
    pad1024 c = c ++ List.replicate (1024 - c.length) 0 := by
  rw [pad1024, List.take_of_length_le h]

theorem pad1024_length (c : List Nat) (h : c.length ≤ 1024) :
    (pad1024 c).length = 1024 := by
  rw [pad1024_of_le c h]
  simp
  omega

theorem readI16_of_small (n : Nat) (h : n < 32768) :
    readI16 (n / 256) (n % 256) = (n : Int) := by
  have hd : n / 256 * 256 + n % 256 = n := by omega
  simp only [readI16, hd]
  rw [if_pos h]

theorem readU16_split (n : Nat) : readU16 (n / 256) (n % 256) = n := by
  simp only [readU16]
  omega

/-- A successfully encoded classic string is exactly 64 bytes. -/
theorem strW_length (e : PyEncoding) (s w : List Nat) (h : strW e s = some w) :
    w.length = 64 := by
  simp only [strW, encode_classic_string] at h
  by_cases hl : 64 < s.length
  · simp [hl] at h
  · simp only [if_neg hl] at h
    cases hm : mapCodec (encodeChar e) s with
    | none => rw [hm] at h; simp at h
    | some bs =>
        rw [hm] at h
        simp at h
        have := mapCodec_length _ _ _ hm
        simp [← h]
        omega

theorem mapCodec_isSome (f : Nat → Option Nat) (l : List Nat)
    (h : ∀ c ∈ l, (f c).isSome) : (mapCodec f l).isSome := by
  induction l with
  | nil => simp [mapCodec]
  | cons c cs ih =>
      have hc := h c (by simp)
      cases hfc : f c with
      | none => rw [hfc] at hc; simp at hc
      | some b =>
          have hcs := ih (fun d hd => h d (by simp [hd]))
          cases hm : mapCodec f cs with
          | none => rw [hm] at hcs; simp at hcs
          | some bs => simp [mapCodec_cons, hfc, hm]

/-- A string of at most 64 encodable characters encodes successfully. -/
theorem strW_isSome (e : PyEncoding) (s : List Nat) (hl : s.length ≤ 64)
    (h : ∀ c ∈ s, (encodeChar e c).isSome) : (strW e s).isSome := by
  have := mapCodec_isSome (encodeChar e) s h
  cases hm : mapCodec (encodeChar e) s with
  | none => rw [hm] at this; simp at this
  | some bs =>
      simp [strW, encode_classic_string, Nat.not_lt.mpr hl, hm]

/-! ## Example session states (used by witnesses and counterexamples) -/

/-- Server session with `ExtPlayerList` v2 negotiated and handler installed. -/
def srvExt : SrvSession :=
  { alive := true, extensions := [ExtPlayerList2], textEncoding := .ascii,
    locStruct := .fmt3h2B, out := [], lastLocation := none,
    messageBuffer := [], handlerSet := true, upcalls := [] }

/-- Server session with no extensions negotiated and handler installed. -/
def srvNoExt : SrvSession := { srvExt with extensions := [] }

/-- A dead server session. -/
def srvDead : SrvSession := { srvNoExt with alive := false }

/-- A fresh client session (pre-handshake: no handler yet). -/
def cliFresh : CliSession :=
  { alive := true, extensions := [], textEncoding := .ascii,
    locStruct := .fmt3h2B, out := [], lastLocation := none, holding := 0,
    receivingLevel := false, levelBuffer := none, name := [], motd := [],
    operator := 0, handlerSet := false, upcalls := [] }

/-- A client session past the handshake (handler installed). -/
def cliReady : CliSession := { cliFresh with handlerSet := true }

/-- A dead client session (after `close()`). -/
def cliDead : CliSession := cliClose cliFresh

/-! ## Claim C2 — string codec round-trip -/

/-- C2 (counterexample): for `s = "a\t"` under ASCII the code returns `"a"`
(the decoder's `bytes.rstrip()` strips the tab), while the claim's
`s.rstrip(' ')` keeps the tab — so
`decode(encode(s, e), e) = s.rstrip(' ')` fails at this input. -/
theorem C2_counterexample :
    (encode_classic_string PyEncoding.ascii [97, 9]).bind
        (decode_classic_string PyEncoding.ascii) = some [97]
    ∧ rstripSpaceOnly [97, 9] = [97, 9]
    ∧ ([97] : List Nat) ≠ rstripSpaceOnly [97, 9] := by decide

/-- C2 (amended): for every string `s` whose encoding under `e` succeeds
(encodable, at most 64 characters), decoding the encoding yields `s` with its
trailing ASCII-whitespace characters (space, tab, LF, VT, FF, CR) removed —
`bytes.rstrip()` semantics, not space-only stripping. -/
theorem C2_decode_encode (e : PyEncoding) (s w : List Nat)
    (h : encode_classic_string e s = some w) :
    decode_classic_string e w = some (rstripAsciiWs s) :=
  decode_encode_aux e s w h

theorem C2_witness :
    encode_classic_string PyEncoding.ascii [104, 105]
        = some ([104, 105] ++ List.replicate 62 32)
    ∧ decode_classic_string PyEncoding.ascii ([104, 105] ++ List.replicate 62 32)
        = some (rstripAsciiWs [104, 105]) :=
  ⟨by decide,
   C2_decode_encode PyEncoding.ascii [104, 105]
     ([104, 105] ++ List.replicate 62 32) (by decide)⟩

/-! ## Claim C5 — negotiated extensions vs codec state -/

/-- C5: when `received_extensions` fires on a session whose codec fields still
hold their `__init__` defaults, afterwards `ExtEntityPositions` is negotiated
iff the location struct is the 32-bit one, and `FullCP437` is negotiated iff
the text encoding is cp437. -/
theorem C5_received_extensions (st : BaseConn)
    (henc : st.textEncoding = PyEncoding.ascii)
    (hloc : st.locStruct = LocStruct.fmt3h2B) :
    (EntityPositions ∈ st.extensions
        ↔ (received_extensions st).locStruct = LocStruct.fmt3i2B)
    ∧ (FullCP437 ∈ st.extensions
        ↔ (received_extensions st).textEncoding = PyEncoding.cp437) := by
  unfold received_extensions
  by_cases h1 : EntityPositions ∈ st.extensions <;>
    by_cases h2 : FullCP437 ∈ st.extensions <;>
      simp [h1, h2, henc, hloc]

theorem C5_witness :
    (EntityPositions ∈ ({ initBase with extensions := [EntityPositions] } : BaseConn).extensions
        ↔ (received_extensions { initBase with extensions := [EntityPositions] }).locStruct
            = LocStruct.fmt3i2B)
    ∧ (FullCP437 ∈ ({ initBase with extensions := [EntityPositions] } : BaseConn).extensions
        ↔ (received_extensions { initBase with extensions := [EntityPositions] }).textEncoding
            = PyEncoding.cp437) :=
  C5_received_extensions { initBase with extensions := [EntityPositions] } rfl rfl

/-! ## Claim C6 — ext-entry overflow -/

/-- C6 (counterexample): an ext-entry with `ext_left = 0` does close the
session, but `_ext_left` is still decremented to `-1`, so "`ext_left` remains
a non-negative integer at all times" fails. -/
theorem C6_counterexample :
    (handle_ext_entry (strCodes "HeldBlock") 1 initBase).alive = false
    ∧ (handle_ext_entry (strCodes "HeldBlock") 1 initBase).extLeft < 0 := by decide

/-- C6 (amended): an ext-entry arriving with `ext_left = 0` closes the session
(protocol error), but the handler still records the entry and decrements the
countdown, leaving `ext_left = -1` — the countdown does not stay
non-negative. -/
theorem C6_ext_entry_overflow (name : List Nat) (version : Nat) (st : BaseConn)
    (h : st.extLeft = 0) :
    (handle_ext_entry name version st).alive = false
    ∧ (handle_ext_entry name version st).extLeft = -1 := by
  simp only [handle_ext_entry, close_conn, h]
  norm_num

theorem C6_witness :
    (handle_ext_entry (strCodes "MessageTypes") 1 initBase).alive = false
    ∧ (handle_ext_entry (strCodes "MessageTypes") 1 initBase).extLeft = -1 :=
  C6_ext_entry_overflow (strCodes "MessageTypes") 1 initBase rfl

/-! ## Claim C8 — `remove_player` gating -/

/-- C8 (code bug): `remove_player` writes nothing when `ExtPlayerList` IS
negotiated and writes the remove-player frame (`0x18`, 16-bit id) when it is
NOT — the opposite of the claimed (and intended) gating. -/
theorem C8_remove_player_eval :
    runServerOp id (ServerOp.remove_player 5) srvExt = some srvExt
    ∧ runServerOp id (ServerOp.remove_player 5) srvNoExt
        = some { srvNoExt with out := [0x18, 0, 5] } := by decide

/-! ## Claim C3 — outbound calls on a closed session -/

/-- C3 (counterexample): client-role outbound methods carry no `if_alive`
guard: `change_block` on a dead client session still writes its 9-byte frame,
so "every outbound operation of either session role is a silent no-op after
close" fails on the client role. -/
theorem C3_counterexample :
    runClientOp (ClientOp.change_block 0 0 0 true 1) cliDead
      = some { cliDead with out := [5, 0, 0, 0, 0, 0, 0, 1, 1] }
    ∧ ([5, 0, 0, 0, 0, 0, 0, 1, 1] : List Nat) ≠ [] := by decide

/-- C3 (amended): every outbound operation of the SERVER role invoked on a
session whose `alive` is false writes nothing, changes nothing and raises
nothing (the `if_alive` decorator guards each one); the client role's
outbound methods are unguarded. -/
theorem C3_server_ops_dead (comp : List Nat → List Nat) (op : ServerOp)
    (st : SrvSession) (h : st.alive = false) :
    runServerOp comp op st = some st := by
  cases op <;>
    simp [runServerOp, add_entity, move_entity, remove_entity, world_info,
      send_level, set_block, send_message, set_message, set_location, kick,
      set_color_code, set_block_permission, add_player, remove_player,
      hold_this, if_alive, h]

theorem C3_witness :
    runServerOp id (ServerOp.set_block 1 2 3 4) srvDead = some srvDead :=
  C3_server_ops_dead id (ServerOp.set_block 1 2 3 4) srvDead rfl

/-! ## Claim C9 — disconnect delivered exactly once -/

/-- The close-triggering causes of the lifecycle claim.  `appClose` is a
direct call of `close()` (unguarded, `server.py:162-165` /
`client.py:78-81`); `kickFrame` is `kick()`, whose body closes but is wrapped
in `if_alive`; `badOpcode` is `handle_unknown`, dispatched only after the
`while self.alive` check of `handle_forever` (one dispatch per iteration, so
it runs only on a session that was alive); `eofReset` is the
`except (ConnectionResetError, EOFError): self.close()` clause of
`handle_forever`, which is UNCONDITIONAL — a read raising `EOFError` inside a
handler that has already closed the session (e.g. `_handle_hello` kicks on a
repeated hello and then keeps reading) still reaches it.  `kick` also writes
a disconnect frame; the bytes are irrelevant to upcall counting and omitted
here. -/
inductive CloseCause : Type
  | appClose : CloseCause
  | kickFrame : CloseCause
  | badOpcode : CloseCause
  | eofReset : CloseCause
deriving DecidableEq

def stepClose : CloseCause → SrvSession → SrvSession
  | .appClose, st => srvClose st
  | .kickFrame, st => if st.alive then srvClose st else st
  | .badOpcode, st => if st.alive then srvClose st else st
  | .eofReset, st => srvClose st

def runCauses (cs : List CloseCause) (st : SrvSession) : SrvSession :=
  cs.foldl (fun s c => stepClose c s) st

def disconnectCount (st : SrvSession) : Nat :=
  st.upcalls.countP (fun u => u == ServerUpcall.disconnected)

/-- C9 (counterexample): the upcall is not delivered exactly once.  Twice: an
in-handler `kick` (duplicate hello in `_handle_hello`) delivers the first
`disconnect()` and sets `alive` false, and an `EOFError` from the handler's
next read reaches `handle_forever`'s unconditional except-clause `close()`,
delivering a second.  Zero: a session that closes before its handler is
installed delivers none. -/
theorem C9_counterexample :
    disconnectCount (runCauses [CloseCause.kickFrame, CloseCause.eofReset] srvExt) = 2
    ∧ disconnectCount
        (runCauses [CloseCause.eofReset] { srvExt with handlerSet := false }) = 0 := by
  decide

/-- C9 (amended): each execution of `close()` on a session with an installed
handler delivers exactly one `disconnect()` upcall — in particular a session
that closes due to a single cause (explicit close, kick, unknown opcode, EOF
or reset) with its handler installed delivers exactly once.  Delivery is not
deduplicated across causes: a further unguarded close (an explicit `close()`
call, or the frame loop's unconditional EOF/reset handler, reachable after an
in-handler kick has already closed the session) delivers an additional upcall
each time, and a session closed before its handler is installed delivers
none. -/
theorem C9_single_close_once (c : CloseCause) (st : SrvSession)
    (ha : st.alive = true) (hh : st.handlerSet = true)
    (hd : disconnectCount st = 0) :
    disconnectCount (runCauses [c] st) = 1 := by
  have h1 : stepClose c st = srvClose st := by
    cases c <;> simp [stepClose, ha]
  simp only [runCauses, List.foldl_cons, List.foldl_nil, h1]
  simp only [disconnectCount, srvClose, hh, if_pos] at hd ⊢
  rw [List.countP_append, hd]
  rfl

theorem C9_witness :
    disconnectCount (runCauses [CloseCause.eofReset] srvExt) = 1 :=
  C9_single_close_once CloseCause.eofReset srvExt rfl rfl (by decide)

/-! ## Claim C10 — `chunked` is a lossless fragmentation -/

/-- C10: for every sequence and positive chunk size, the chunks concatenate
back to the sequence, number `⌈len/n⌉`, all have length in `[1, n]`, all but
the last have length exactly `n`, and there are no chunks iff the sequence is
empty. -/
theorem C10_chunked_spec {α : Type} (s : List α) (n : Nat) (hn : 0 < n) :
    (chunked s n).flatten = s
    ∧ (chunked s n).length = (s.length + n - 1) / n
    ∧ (∀ c ∈ chunked s n, 1 ≤ c.length ∧ c.length ≤ n)
    ∧ (∀ c ∈ (chunked s n).dropLast, c.length = n)
    ∧ (chunked s n = [] ↔ s = []) :=
  ⟨chunked_flatten n hn s, chunked_length n hn s, chunked_mem_length n hn s,
   chunked_dropLast_length n hn s, chunked_eq_nil_iff n hn s⟩

theorem C10_witness :
    (chunked [1, 2, 3, 4, 5] 2).flatten = [1, 2, 3, 4, 5]
    ∧ (chunked [1, 2, 3, 4, 5] 2).length = (([1, 2, 3, 4, 5] : List Nat).length + 2 - 1) / 2
    ∧ (∀ c ∈ chunked [1, 2, 3, 4, 5] 2, 1 ≤ c.length ∧ c.length ≤ 2)
    ∧ (∀ c ∈ (chunked [1, 2, 3, 4, 5] 2).dropLast, c.length = 2)
    ∧ (chunked [1, 2, 3, 4, 5] 2 = [] ↔ ([1, 2, 3, 4, 5] : List Nat) = []) :=
  C10_chunked_spec [1, 2, 3, 4, 5] 2 (by decide)

/-! ## Claim C1 — level transfer round-trip -/

/-- Bytes of one level-chunk frame for a chunk of at most 1024 bytes. -/
def levelChunkFrame (c : List Nat) : List Nat :=
  [0x03, c.length / 256, c.length % 256]
    ++ (c ++ List.replicate (1024 - c.length) 0) ++ [0]

/-- All the bytes `send_level` writes. -/
def levelFrames (comp : List Nat → List Nat) (x y z : Nat) (data : List Nat) :
    List Nat :=
  [0x02] ++ ((chunked (comp (u32be data.length ++ data)) 1024).map levelChunkFrame).flatten
    ++ [0x04] ++ [x / 256, x % 256, y / 256, y % 256, z / 256, z % 256]

theorem send_level_fold :
    ∀ (cs : List (List Nat)), (∀ c ∈ cs, c.length ≤ 1024) →
    ∀ (st : SrvSession),
      cs.foldlM (fun st c =>
          (emitS st (byteW 0x03)).bind (fun st =>
          (emitS st (i16W (c.length : Int))).bind (fun st =>
          (emitS st (some (pad1024 c))).bind (fun st =>
          emitS st (byteW 0))))) st
        = some { st with out := st.out ++ (cs.map levelChunkFrame).flatten } := by
  intro cs
  induction cs with
  | nil => intro h st; simp [List.foldlM]
  | cons c cs ih =>
      intro h st
      have hc : c.length ≤ 1024 := h c (by simp)
      have hhead :
          (emitS st (byteW 0x03)).bind (fun st =>
          (emitS st (i16W (c.length : Int))).bind (fun st =>
          (emitS st (some (pad1024 c))).bind (fun st =>
          emitS st (byteW 0))))
            = some { st with out := st.out ++ levelChunkFrame c } := by
        rw [byteW_eval 3 (by norm_num), i16W_of_small c.length (by omega),
            pad1024_of_le c hc, byteW_eval 0 (by norm_num)]
        simp [emitS, levelChunkFrame, List.append_assoc]
      rw [List.foldlM_cons, hhead]
      simp only [Option.pure_def, Option.bind_eq_bind, Option.some_bind]
      rw [ih (fun d hd => h d (by simp [hd]))]
      simp [List.append_assoc]

theorem send_level_out (comp : List Nat → List Nat) (x y z : Nat) (data : List Nat)
    (st : SrvSession) (ha : st.alive = true)
    (hx : x < 65536) (hy : y < 65536) (hz : z < 65536)
    (hlen : data.length < 4294967296) :
    send_level comp x y z data st
      = some { st with out := st.out ++ levelFrames comp x y z data } := by
  unfold send_level if_alive
  rw [if_pos ha]
  simp only [send_level_fold (chunked (comp (u32be data.length ++ data)) 1024)
      (fun c hc => (chunked_mem_length 1024 (by norm_num) _ c hc).2)]
  rw [byteW_eval 2 (by norm_num), byteW_eval 4 (by norm_num),
      posW_eval x y z hx hy hz]
  simp [emitS, hlen, levelFrames, List.append_assoc]

theorem clientRun_nil (decomp : List Nat → List Nat) (st : CliSession) :
    clientRun decomp [] st = some st := by
  rw [clientRun]

theorem clientRun_start (decomp : List Nat → List Nat) (tail : List Nat)
    (st : CliSession) (ha : st.alive = true) :
    clientRun decomp (2 :: tail) st
      = clientRun decomp tail { st with receivingLevel := true, levelBuffer := some [] } := by
  rw [clientRun]
  simp [ha]

theorem clientRun_chunkFrame (decomp : List Nat → List Nat) (c : List Nat)
    (hc : c.length ≤ 1024) (tail : List Nat) (st : CliSession)
    (ha : st.alive = true) (hr : st.receivingLevel = true)
    (buf : List Nat) (hb : st.levelBuffer = some buf) :
    clientRun decomp (levelChunkFrame c ++ tail) st
      = clientRun decomp tail { st with levelBuffer := some (buf ++ c) } := by
  have hfr : levelChunkFrame c ++ tail
      = 3 :: ((c.length / 256) :: (c.length % 256)
          :: ((c ++ List.replicate (1024 - c.length) 0) ++ ([0] ++ tail))) := by
    simp [levelChunkFrame]
  have hPlen : (c ++ List.replicate (1024 - c.length) 0).length = 1024 := by
    simp
    omega
  rw [hfr, clientRun]
  have h1 : ¬ (((c.length / 256) :: (c.length % 256)
      :: ((c ++ List.replicate (1024 - c.length) 0) ++ ([0] ++ tail))).length < 1027) := by
    simp
    omega
  rw [if_neg (by simp [ha]), if_neg (by norm_num), if_neg (by norm_num)]
  rw [if_pos (by norm_num), if_neg h1]
  simp only [List.getD_cons_zero, List.getD_cons_succ]
  rw [show ((c.length / 256) :: (c.length % 256)
        :: ((c ++ List.replicate (1024 - c.length) 0) ++ ([0] ++ tail))).drop 2
      = (c ++ List.replicate (1024 - c.length) 0) ++ ([0] ++ tail) from rfl]
  rw [List.take_left' hPlen]
  rw [readI16_of_small c.length (by omega)]
  rw [hr, hb]
  simp only [if_true]
  have hdrop : ((c.length / 256) :: (c.length % 256)
      :: ((c ++ List.replicate (1024 - c.length) 0) ++ ([0] ++ tail))).drop 1027 = tail := by
    rw [show (c.length / 256) :: (c.length % 256)
          :: ((c ++ List.replicate (1024 - c.length) 0) ++ ([0] ++ tail))
        = ((c.length / 256) :: (c.length % 256)
            :: ((c ++ List.replicate (1024 - c.length) 0) ++ [0])) ++ tail from by
      simp [List.append_assoc]]
    exact List.drop_left' (by simp; omega)
  rw [hdrop]
  have hslice : pySliceTo (c ++ List.replicate (1024 - c.length) 0) (c.length : Int) = c := by
    simp only [pySliceTo, if_pos (Int.natCast_nonneg c.length), Int.toNat_natCast]
    exact List.take_left c _
  rw [hslice]

theorem clientRun_chunkFrames (decomp : List Nat → List Nat) :
    ∀ (cs : List (List Nat)), (∀ c ∈ cs, c.length ≤ 1024) →
    ∀ (tail : List Nat) (st : CliSession), st.alive = true →
      st.receivingLevel = true →
    ∀ buf, st.levelBuffer = some buf →
    clientRun decomp ((cs.map levelChunkFrame).flatten ++ tail) st
      = clientRun decomp tail { st with levelBuffer := some (buf ++ cs.flatten) } := by
  intro cs
  induction cs with
  | nil =>
      intro h tail st ha hr buf hb
      simp only [List.map_nil, List.flatten_nil, List.nil_append, List.append_nil, ← hb]
  | cons c cs ih =>
      intro h tail st ha hr buf hb
      simp only [List.map_cons, List.flatten_cons, List.append_assoc]
      rw [clientRun_chunkFrame decomp c (h c (by simp)) _ st ha hr buf hb]
      rw [ih (fun d hd => h d (by simp [hd])) tail
            { st with levelBuffer := some (buf ++ c) } ha hr (buf ++ c) rfl]
      simp [List.append_assoc]

theorem clientRun_finish (decomp : List Nat → List Nat) (x y z : Nat)
    (st : CliSession)
    (ha : st.alive = true) (hr : st.receivingLevel = true) (hh : st.handlerSet = true)
    (buf : List Nat) (hb : st.levelBuffer = some buf) :
    clientRun decomp [4, x / 256, x % 256, y / 256, y % 256, z / 256, z % 256] st
      = some { st with
               receivingLevel := false
               levelBuffer := none
               upcalls := st.upcalls
                 ++ [ClientUpcall.sendLevel x y z ((decomp buf).drop 4)] } := by
  rw [clientRun]
  rw [if_neg (by simp [ha]), if_neg (by norm_num), if_neg (by norm_num),
      if_neg (by norm_num), if_pos (by norm_num), if_neg (by norm_num)]
  simp only [List.getD_cons_zero, List.getD_cons_succ]
  rw [readU16_split x, readU16_split y, readU16_split z, hr, hb]
  simp only [if_true, hh]
  rw [show ([x / 256, x % 256, y / 256, y % 256, z / 256, z % 256] : List Nat).drop 6
      = [] from rfl]
  rw [clientRun_nil]

/-- C1: for every byte payload (4-byte-length-representable) and in-range
spawn position, `send_level` on an alive server session writes a frame
sequence which — fed to an alive client session with its handler installed —
delivers exactly one `send_level(x, y, z, data)` upcall with the payload
byte-for-byte intact.  Quantified over any compression/decompression pair
satisfying the gzip round-trip contract. -/
theorem C1_level_roundtrip (comp decomp : List Nat → List Nat)
    (hinv : ∀ bs, decomp (comp bs) = bs)
    (x y z : Nat) (data : List Nat)
    (hx : x < 65536) (hy : y < 65536) (hz : z < 65536)
    (hlen : data.length < 4294967296)
    (srv : SrvSession) (cl : CliSession)
    (hsa : srv.alive = true) (hca : cl.alive = true) (hch : cl.handlerSet = true) :
    ∃ F cl',
      runServerOp comp (ServerOp.send_level x y z data) srv
        = some { srv with out := srv.out ++ F }
      ∧ clientRun decomp F cl = some cl'
      ∧ cl'.upcalls = cl.upcalls ++ [ClientUpcall.sendLevel x y z data] := by
  refine ⟨levelFrames comp x y z data,
    { cl with
      receivingLevel := false
      levelBuffer := none
      upcalls := cl.upcalls ++ [ClientUpcall.sendLevel x y z data] }, ?_, ?_, rfl⟩
  · exact send_level_out comp x y z data srv hsa hx hy hz hlen
  · rw [show levelFrames comp x y z data
        = 2 :: (((chunked (comp (u32be data.length ++ data)) 1024).map
              levelChunkFrame).flatten
            ++ [4, x / 256, x % 256, y / 256, y % 256, z / 256, z % 256]) from by
      simp [levelFrames, List.append_assoc]]
    rw [clientRun_start decomp _ cl hca]
    rw [clientRun_chunkFrames decomp
          (chunked (comp (u32be data.length ++ data)) 1024)
          (fun c hc => (chunked_mem_length 1024 (by norm_num) _ c hc).2)
          _ { cl with receivingLevel := true, levelBuffer := some [] }
          hca rfl [] rfl]
    show clientRun decomp [4, x / 256, x % 256, y / 256, y % 256, z / 256, z % 256]
        { cl with
          receivingLevel := true
          levelBuffer := some ((chunked (comp (u32be data.length ++ data)) 1024).flatten) }
      = _
    rw [clientRun_finish decomp x y z
          { cl with
            receivingLevel := true
            levelBuffer := some ((chunked (comp (u32be data.length ++ data)) 1024).flatten) }
          hca rfl hch _ rfl]
    rw [chunked_flatten 1024 (by norm_num), hinv,
        List.drop_left' (u32be_length data.length)]

theorem C1_witness :
    ∃ F cl',
      runServerOp id (ServerOp.send_level 2 3 4 [1, 2, 3, 4, 5]) srvNoExt
        = some { srvNoExt with out := srvNoExt.out ++ F }
      ∧ clientRun id F cliReady = some cl'
      ∧ cl'.upcalls = cliReady.upcalls ++ [ClientUpcall.sendLevel 2 3 4 [1, 2, 3, 4, 5]] :=
  C1_level_roundtrip id id (fun bs => rfl) 2 3 4 [1, 2, 3, 4, 5]
    (by decide) (by decide) (by decide) (by decide) srvNoExt cliReady rfl rfl rfl

/-! ## Claim C4 — chat fragmentation and reassembly -/

theorem serverRun_nil (st : SrvSession) : serverRun [] st = some st := by
  rw [serverRun]

/-- Processing one chat-message frame (`0x0D`, flag byte, 64 text bytes). -/
theorem serverRun_chat_frame (flag : Nat) (w tail : List Nat) (hw : w.length = 64)
    (st : SrvSession) (ha : st.alive = true) :
    serverRun (13 :: flag :: (w ++ tail)) st
      = if flag = 0 then
          match decode_classic_string st.textEncoding (st.messageBuffer ++ w) with
          | none => none
          | some msg =>
              if st.handlerSet then
                serverRun tail
                  { st with
                    messageBuffer := []
                    upcalls := st.upcalls ++ [ServerUpcall.submitMessage msg] }
              else none
        else serverRun tail { st with messageBuffer := st.messageBuffer ++ w } := by
  rw [serverRun]
  rw [if_neg (by simp [ha]), if_pos (by norm_num)]
  have hlen : ¬ ((flag :: (w ++ tail)).length < 65) := by
    simp [hw]
  rw [if_neg hlen]
  simp only [List.getD_cons_zero]
  rw [show (flag :: (w ++ tail)).drop 1 = w ++ tail from rfl, List.take_left' hw]
  have hdrop : (flag :: (w ++ tail)).drop 65 = tail := by
    rw [show flag :: (w ++ tail) = (flag :: w) ++ tail from by simp]
    exact List.drop_left' (by simp [hw])
  rw [hdrop]

theorem submit_fold :
    ∀ (cs : List (List Nat)) (e : PyEncoding),
      (∀ c ∈ cs, c.length ≤ 64 ∧ ∀ ch ∈ c, (encodeChar e ch).isSome) →
      ∀ (st : CliSession) (p : Nat), p < 256 → st.textEncoding = e →
      ∃ F,
        (cs.foldlM (fun (q : CliSession × Nat) c =>
            (emitC q.1 (byteW 0x0D)).bind (fun st =>
            (emitC st (byteW q.2)).bind (fun st =>
            (emitC st (strW st.textEncoding c)).map (fun st => (st, 1)))))
          (st, p)).map Prod.fst
          = some { st with out := st.out ++ F }
        ∧ F.length = 66 * cs.length := by
  intro cs
  induction cs with
  | nil =>
      intro e h st p hp he
      refine ⟨[], ?_, by simp⟩
      simp [List.foldlM]
  | cons c cs ih =>
      intro e h st p hp he
      obtain ⟨hc64, hcenc⟩ := h c (by simp)
      have hsome : (strW e c).isSome := strW_isSome e c hc64 hcenc
      obtain ⟨w, hw⟩ := Option.isSome_iff_exists.mp hsome
      have hwlen : w.length = 64 := strW_length e c w hw
      obtain ⟨F', hF', hlenF'⟩ := ih e (fun d hd => h d (by simp [hd]))
        { st with out := st.out ++ ([13] ++ [p] ++ w) } 1 (by norm_num) (by simp [he])
      refine ⟨([13] ++ [p] ++ w) ++ F', ?_, ?_⟩
      · simp only [List.foldlM_cons]
        have hstep :
            (emitC st (byteW 13)).bind (fun st2 =>
            (emitC st2 (byteW p)).bind (fun st3 =>
            (emitC st3 (strW st3.textEncoding c)).map (fun st4 => (st4, 1))))
              = some ({ st with out := st.out ++ ([13] ++ [p] ++ w) }, 1) := by
          rw [byteW_eval 13 (by norm_num), byteW_eval p hp]
          simp [emitC, he, hw, List.append_assoc]
        rw [hstep]
        simp only [Option.pure_def, Option.bind_eq_bind, Option.some_bind]
        rw [hF']
        simp [List.append_assoc]
      · simp only [List.length_append, List.length_cons, List.length_nil,
          List.length_cons, hwlen, hlenF', List.length_cons]
        omega

/-- C4 (amended): `submit_message(m)` writes exactly `⌈len(m)/64⌉` message
frames (66 bytes each); when `1 ≤ len(m) ≤ 64` (one frame), feeding the
frames to the server role's chat decoder delivers exactly one
`submit_message` upcall carrying `m` with trailing ASCII whitespace removed
(`bytes.rstrip()` semantics).  For longer messages the source's flag
convention (first frame 0) makes the receiver complete early, so the one
upcall does not carry the full message. -/
theorem C4_chat_roundtrip (e : PyEncoding) (m : List Nat)
    (cl : CliSession) (srv : SrvSession)
    (hce : cl.textEncoding = e) (hse : srv.textEncoding = e)
    (henc : ∀ ch ∈ m, (encodeChar e ch).isSome)
    (hsa : srv.alive = true) (hsh : srv.handlerSet = true)
    (hsb : srv.messageBuffer = []) :
    ∃ F,
      CliRole.submit_message m cl = some { cl with out := cl.out ++ F }
      ∧ F.length = 66 * ((m.length + 63) / 64)
      ∧ (1 ≤ m.length → m.length ≤ 64 →
          ∃ srv', serverRun F srv = some srv'
            ∧ srv'.upcalls
                = srv.upcalls ++ [ServerUpcall.submitMessage (rstripAsciiWs m)]) := by
  have hchunks : ∀ c ∈ chunked m 64,
      c.length ≤ 64 ∧ ∀ ch ∈ c, (encodeChar e ch).isSome := by
    intro c hc
    refine ⟨(chunked_mem_length 64 (by norm_num) m c hc).2, ?_⟩
    intro ch hch
    apply henc
    rw [← chunked_flatten 64 (by norm_num) m]
    exact List.mem_flatten.mpr ⟨c, hc, hch⟩
  obtain ⟨F, hF, hFlen⟩ := submit_fold (chunked m 64) e hchunks cl 0 (by norm_num) hce
  have hsubmit : CliRole.submit_message m cl = some { cl with out := cl.out ++ F } := by
    rw [CliRole.submit_message]
    exact hF
  refine ⟨F, hsubmit, ?_, ?_⟩
  · rw [hFlen, chunked_length 64 (by norm_num) m]
    have h63 : m.length + 64 - 1 = m.length + 63 := by omega
    rw [h63]
  · intro h1 h64
    have hm : m ≠ [] := by
      intro h
      subst h
      simp at h1
    have hone : chunked m 64 = [m] := by
      rw [chunked_cons 64 (by norm_num) m hm, List.take_of_length_le h64,
          List.drop_eq_nil_of_le h64, chunked_nil]
    have hsome : (strW e m).isSome := strW_isSome e m h64 henc
    obtain ⟨w, hw⟩ := Option.isSome_iff_exists.mp hsome
    have hwlen : w.length = 64 := strW_length e m w hw
    have hdirect : CliRole.submit_message m cl
        = some { cl with out := cl.out ++ ([13] ++ [0] ++ w) } := by
      rw [CliRole.submit_message, hone]
      simp only [List.foldlM_cons, List.foldlM_nil]
      rw [byteW_eval 13 (by norm_num), byteW_eval 0 (by norm_num)]
      simp [emitC, hce, hw, List.append_assoc]
    have hFeq : F = [13] ++ [0] ++ w := by
      have heq := hsubmit.symm.trans hdirect
      have hout := congrArg (fun o => (Option.map CliSession.out o).getD [])
        heq
      simp at hout
      simpa using hout
    rw [hFeq]
    rw [show ([13] ++ [0] ++ w : List Nat) = 13 :: 0 :: (w ++ []) from by simp]
    rw [serverRun_chat_frame 0 w [] hwlen srv hsa, if_pos rfl, hsb]
    rw [show ([] : List Nat) ++ w = w from by simp, hse]
    rw [decode_encode_aux e m w hw]
    simp only [hsh, if_true]
    rw [serverRun_nil]
    exact ⟨_, rfl, rfl⟩

theorem C4_witness :
    ∃ F, CliRole.submit_message [104, 105] cliFresh
        = some { cliFresh with out := cliFresh.out ++ F }
      ∧ F.length = 66 * ((([104, 105] : List Nat).length + 63) / 64)
      ∧ (1 ≤ ([104, 105] : List Nat).length → ([104, 105] : List Nat).length ≤ 64 →
          ∃ srv', serverRun F srvNoExt = some srv'
            ∧ srv'.upcalls = srvNoExt.upcalls
                ++ [ServerUpcall.submitMessage (rstripAsciiWs [104, 105])]) :=
  C4_chat_roundtrip PyEncoding.ascii [104, 105] cliFresh srvNoExt rfl rfl
    (by decide) rfl rfl rfl

/-- C4 (counterexample): a 65-character message is sent as two frames, but
the first frame's flag byte is 0, so the server decoder completes after the
first 64 characters: the single delivered upcall carries only 64 of the 65
characters, refuting the claim at this input. -/
theorem C4_counterexample :
    ((CliRole.submit_message (List.replicate 65 97) cliFresh).bind
        (fun st => serverRun st.out srvNoExt)).map (fun srv => srv.upcalls)
      = some [ServerUpcall.submitMessage (List.replicate 64 97)]
    ∧ rstripAsciiWs (List.replicate 65 97) = List.replicate 65 97
    ∧ [ServerUpcall.submitMessage (List.replicate 64 97)]
        ≠ [ServerUpcall.submitMessage (List.replicate 65 97)] := by
  refine ⟨?_, by decide, by decide⟩
  have hsub : CliRole.submit_message (List.replicate 65 97) cliFresh
      = some { cliFresh with
               out := ([13] ++ [0] ++ List.replicate 64 97)
                 ++ ([13] ++ [1] ++ ([97] ++ List.replicate 63 32)) } := by decide
  rw [hsub]
  simp only [Option.some_bind]
  rw [show ([13] ++ [0] ++ List.replicate 64 97
        ++ ([13] ++ [1] ++ ([97] ++ List.replicate 63 32)) : List Nat)
      = 13 :: 0 :: (List.replicate 64 97
          ++ (13 :: 1 :: (([97] ++ List.replicate 63 32) ++ []))) from by decide]
  rw [serverRun_chat_frame 0 (List.replicate 64 97) _ (by decide) srvNoExt rfl]
  rw [if_pos rfl]
  rw [show decode_classic_string srvNoExt.textEncoding
        (srvNoExt.messageBuffer ++ List.replicate 64 97)
      = some (List.replicate 64 97) from by decide]
  have hhs : srvNoExt.handlerSet = true := rfl
  simp only [hhs, if_true]
  rw [serverRun_chat_frame 1 ([97] ++ List.replicate 63 32) [] (by decide)
        { srvNoExt with
          messageBuffer := []
          handlerSet := true
          upcalls := srvNoExt.upcalls
            ++ [ServerUpcall.submitMessage (List.replicate 64 97)] }
        rfl]
  rw [if_neg (show ¬ ((1 : Nat) = 0) from by decide)]
  rw [serverRun_nil]
  decide

/-! ## Claim C7 — the server's hello frame -/

/-- The bytes `world_info("World", "Hi", False)` writes. -/
def helloFrameBytes : List Nat :=
  [0x00] ++ (strCodes "World" ++ List.replicate 59 32)
    ++ (strCodes "Hi" ++ List.replicate 62 32) ++ [0]

/-- C7 (code bug): the hello frame `world_info` emits carries NO
protocol-version byte: the byte after the opcode is `87` (`'W'`, the first
byte of the name), not `7`; and a client-role session fed this 130-byte frame
reads `87` as the version, hits end-of-stream one byte short of the 131-byte
frame it expects, closes, and delivers no upcall. -/
theorem C7_world_info_eval :
    runServerOp id (ServerOp.world_info (strCodes "World") (strCodes "Hi") false) srvNoExt
      = some { srvNoExt with out := helloFrameBytes }
    ∧ helloFrameBytes.getD 1 0 = 87
    ∧ (clientRun id helloFrameBytes cliFresh).map (fun st => (st.alive, st.upcalls))
        = some (false, []) := by
  refine ⟨by decide, by decide, ?_⟩
  rw [show helloFrameBytes
      = 0 :: ((strCodes "World" ++ List.replicate 59 32)
          ++ ((strCodes "Hi" ++ List.replicate 62 32) ++ [0])) from by decide]
  rw [clientRun]
  rw [if_neg (by decide), if_pos rfl, if_pos (by decide)]
  decide

end Classic
